import Mathlib

/-!
Verification of the spectral-domain OCT reconstruction pipeline
(`fft_thread.py` of rachapp/pylonOCT) against its specification.

The Python source is shallowly embedded: pure arithmetic becomes exact
arithmetic over `ℕ`/`ℤ`/`ℚ`/`ℝ`, NumPy arrays become Lean functions or
lists, and the stateful worker loop becomes an explicit state machine.
-/

namespace PylonOCT

/-! ## scipy.fft.next_fast_len and the padding arithmetic of calculate_fft

`calculate_fft` computes `target_size = next_fast_len(2500)`.  scipy's
pocketfft backend handles radices 2, 3, 5, 7 and 11, so `next_fast_len`
returns the smallest 11-smooth integer that is at least its argument.
-/

/-- Divide out every factor `p` from `n`, with explicit fuel (the fuel
`n` itself is always enough since each division at least halves `n`). -/
def stripFuel (p : Nat) : Nat → Nat → Nat
  | 0, n => n
  | fuel + 1, n => if 2 ≤ p ∧ 0 < n ∧ n % p = 0 then stripFuel p fuel (n / p) else n

/-- Remove all factors `p` from `n`. -/
def stripFactor (p n : Nat) : Nat := stripFuel p n n

/-- Source: `n` is a product of the radices 2, 3, 5, 7, 11 supported by pocketfft. -/
def isFastLen (n : Nat) : Bool :=
  stripFactor 11 (stripFactor 7 (stripFactor 5 (stripFactor 3 (stripFactor 2 n)))) == 1

/-- Fueled upward search for the next fast length. -/
def nextFastLenAux : Nat → Nat → Nat
  | 0, n => n
  | fuel + 1, n => if isFastLen n then n else nextFastLenAux fuel (n + 1)

/-- Source: `scipy.fft.next_fast_len(target)`: the smallest 11-smooth `n ≥ target`
(the fuel `target` suffices because some power of 2 below `2 * target`
is 11-smooth). -/
def next_fast_len (target : Nat) : Nat := nextFastLenAux target target

/-- Source: `target_size = next_fast_len(2500)` (line 140 of fft_thread.py). -/
def target_size : Nat := next_fast_len 2500

/-- Source: `current_peak_index = int(current_size * (peak_percentage / 100.0))`
(line 144), in exact arithmetic: the floor of `cs * pp / 100`. -/
def current_peak_index (cs pp : Nat) : Nat := cs * pp / 100

/-- Source: `target_peak_index = target_size // 2` (line 147). -/
def target_peak_index : Nat := target_size / 2

/-- Source: `shift = target_peak_index - current_peak_index` (line 150), a Python
int that may be negative. -/
def shift (cs pp : Nat) : Int := (target_peak_index : Int) - current_peak_index cs pp

/-- Source: `left_padding = max(0, shift)` (line 153). -/
def left_padding (cs pp : Nat) : Nat := (max 0 (shift cs pp)).toNat

/-- Source: `right_padding = max(0, target_size - current_size - left_padding)`
(line 154). -/
def right_padding (cs pp : Nat) : Nat :=
  (max 0 ((target_size : Int) - cs - left_padding cs pp)).toNat

/-- Row length after the padding branch of `calculate_fft` (lines 157-162):
`np.pad` adds `left_padding` zeros on the left and `right_padding` zeros on
the right of each row when `target_size > current_size`; otherwise the frame
is used unpadded. -/
def padded_row_length (cs pp : Nat) : Nat :=
  if cs < target_size then left_padding cs pp + cs + right_padding cs pp else cs

/-- Width of `window_padded` (line 166): the boxcar window of length
`current_size` is padded unconditionally, whether or not the frame was. -/
def window_padded_length (cs pp : Nat) : Nat :=
  left_padding cs pp + cs + right_padding cs pp

/-! ## calculate_fps (lines 184-189) -/

/-- Source: `self.fps = 1 / loop_time if loop_time > 0 else 0` (line 188). -/
def calculate_fps (loop_time : ℚ) : ℚ := if 0 < loop_time then 1 / loop_time else 0

/-- The fps value emitted after a sequence of completed passes, each pass
calling `calculate_fps` with its own loop time (line 103).  The code keeps
no history: each call overwrites `self.fps`. -/
def fpsAfter (times : List ℚ) : ℚ := times.foldl (fun _ t => calculate_fps t) 0

/-- Modelled from the spec: the `RateSample` bounded history of per-pass
times with fixed capacity 10 and FIFO eviction.  No such history exists in
`FFTThread` (`calculate_fps` keeps only the last loop time); this definition
follows the spec's words so the emitted value can be compared against it. -/
def pushHistory (h : List ℚ) (t : ℚ) : List ℚ := (h ++ [t]).drop (h.length + 1 - 10)

/-- Modelled from the spec: history contents after a sequence of passes. -/
def historyAfter (times : List ℚ) : List ℚ := times.foldl pushHistory []

/-- Arithmetic mean of a list of rationals. -/
def listMean (l : List ℚ) : ℚ := l.sum / l.length

end PylonOCT

namespace PylonOCT

/-! ## Shape-level model of the reconstruction pass and the run() loop

`run` (lines 77-106) contains no try/except: any exception raised by a
pipeline stage propagates out of `run` and terminates the thread.  The
stages are modelled at the shape level, which is where they can raise:

* `lambda_to_k` (lines 117-130) calls `np.interp(k_grid, k_array, row)` on
  each reversed row; NumPy raises `ValueError` when `len(fp) != len(xp)`,
  i.e. when the frame width differs from `num_points`; on success every row
  is resampled to length `num_points = len(k_grid)`.
* `calculate_fft` multiplies `frame_padded` (width `padded_row_length`) by
  `window_padded[np.newaxis, :]` (width `window_padded_length`, line 169)
  and subtracts the two transposed angle slices of shape
  `(500, min(998, L))` and `(500, min(998, L-1))` (line 179); either
  elementwise operation raises `ValueError` when the shapes do not
  broadcast.

The model covers the default configuration (`apply_dc_subtraction` and
`apply_lambda_to_k` both `True`); `dc_subtraction` raises nothing and
preserves the shape. -/

/-- A Python exception escaping a pipeline stage (NumPy raises
`ValueError` both for mismatched `np.interp` inputs and for shapes that
fail to broadcast). -/
inductive PyErr
  | valueError
deriving DecidableEq

/-- Number of rows selected by the slice `[a:b]` from an axis of length
`L` (NumPy basic slicing with non-negative bounds). -/
def sliceLen (a b L : Nat) : Nat := min b L - min a L

/-- NumPy broadcasting of two trailing dimensions: equal dimensions, or a
dimension of 1 stretched to match; `none` when the shapes are
incompatible (a `ValueError`). -/
def broadcastDim (m n : Nat) : Option Nat :=
  if m = n then some m else if m = 1 then some n else if n = 1 then some m else none

/-- Line count (columns after the transposes) of
`np.angle(fft_result2[0:998, 25:525]).T - np.angle(fft_result2[1:999, 25:525]).T`
for a frame with `L` lines. -/
def phase_line_count (L : Nat) : Option Nat :=
  broadcastDim (sliceLen 0 998 L) (sliceLen 1 999 L)

/-- Shape of an input frame: `lines × samples`. -/
structure FrameShape where
  lines : Nat
  samples : Nat
deriving DecidableEq

/-- Shape-level `calculate_fft` on an `L × N` frame: the window broadcast,
then the phase-difference broadcast; on success it returns the line count
of the emitted phase image. -/
def calcFFTShape (L N pp : Nat) : Except PyErr Nat :=
  match broadcastDim (padded_row_length N pp) (window_padded_length N pp) with
  | none => .error .valueError
  | some _ =>
    match phase_line_count L with
    | none => .error .valueError
    | some c => .ok c

/-- One reconstruction pass in the default configuration:
`dc_subtraction`, then `lambda_to_k` (which requires the frame width to
equal `num_points` and resamples each row to that width), then
`calculate_fft`. -/
def runPass (num_points pp : Nat) (f : FrameShape) : Except PyErr Nat :=
  if f.samples = num_points then calcFFTShape f.lines num_points pp
  else .error .valueError

/-- The `run` loop (lines 77-106) over a stream of incoming frames.  There
is no exception handler: a failing pass terminates the loop, discarding
every later frame; a successful pass emits its result and the loop
continues. -/
def runLoop (num_points pp : Nat) : List FrameShape → List Nat × Option PyErr
  | [] => ([], none)
  | f :: rest =>
    match runPass num_points pp f with
    | .ok r =>
      let (rs, e) := runLoop num_points pp rest
      (r :: rs, e)
    | .error e => ([], some e)

/-! ## State machine for set_frame / stop (C9)

`set_frame` (lines 65-75) stores the published frame only while
`self.running` is true; `stop` (lines 191-196) clears `self.running`; each
iteration of the `run` loop first checks `self.running` (line 82), then
processes and clears the pending frame, emitting a result.  Frames are
abstracted to identifiers; an emission records the processed frame. -/

structure FFTState where
  running : Bool
  frame : Option Nat
deriving DecidableEq

/-- Source: `set_frame`: `if self.running: self.frame = frame`. -/
def set_frame (s : FFTState) (f : Nat) : FFTState :=
  if s.running then { s with frame := some f } else s

/-- Source: `stop`: `self.running = False`. -/
def stop (s : FFTState) : FFTState := { s with running := false }

/-- Interleaved operations on the thread: a producer publishing a frame, a
stop request, or one iteration of the worker loop. -/
inductive Event
  | publish (f : Nat)
  | stopReq
  | iter
deriving DecidableEq

/-- One polling iteration of `run`: while `running`, a pending frame is
processed (emitting a result) and the slot is cleared; with no pending
frame the loop just sleeps; once `running` is false the loop exits and an
iteration does nothing. -/
def loopIter (s : FFTState) : FFTState × List Nat :=
  if s.running then
    match s.frame with
    | none => (s, [])
    | some f => ({ s with frame := none }, [f])
  else (s, [])

/-- Effect of one event on the state, with the results it emits. -/
def applyEvent (s : FFTState) : Event → FFTState × List Nat
  | .publish f => (set_frame s f, [])
  | .stopReq => (stop s, [])
  | .iter => loopIter s

/-- Run a sequence of events, collecting all emitted results. -/
def runEvents (s : FFTState) : List Event → FFTState × List Nat
  | [] => (s, [])
  | e :: es =>
    let (s', out) := applyEvent s e
    let (s'', outs) := runEvents s' es
    (s'', out ++ outs)

/-! ## Wavenumber resampling: lambda_to_k (lines 117-130)

`lambda_to_k` first reverses each frame row along the wavelength axis
(`frame[:, ::-1]`) and then applies
`np.interp(self.k_grid, self.k_array, row)` to every reversed row.  The
interpolation is embedded exactly over `ℚ`; a row together with its
sample abscissas is the node list `k_array.zip reversed_row`. -/

/-- Source: `np.interp(x, xp, fp)` on the node list `zip xp fp` (assumed sorted
by abscissa, as `np.interp` requires): clamp to the first ordinate below
the first node and to the last ordinate above the last node, and
interpolate linearly on the segment containing `x` otherwise. -/
def interp (x : ℚ) : List (ℚ × ℚ) → ℚ
  | [] => 0
  | [p] => p.2
  | p :: q :: ps =>
    if x ≤ p.1 then p.2
    else if x ≤ q.1 then p.2 + (q.2 - p.2) * (x - p.1) / (q.1 - p.1)
    else interp x (q :: ps)

/-- One row of `lambda_to_k`: the row is reversed, then interpolated from
the `k_array` abscissas onto the `k_grid` sample points. -/
def lambda_to_k_row (kGrid kArr row : List ℚ) : List ℚ :=
  kGrid.map fun x => interp x (kArr.zip row.reverse)

/-- Source: `lambda_to_k` on a whole frame (one interpolation per row). -/
def lambda_to_k (kGrid kArr : List ℚ) (frame : List (List ℚ)) : List (List ℚ) :=
  frame.map (lambda_to_k_row kGrid kArr)

/-! ## Calibration state (lines 29-63)

`update_lambda_arrays` recomputes, from the current `lambda_min`,
`lambda_max` and `num_points`,

    self.lambda_array = np.linspace(self.lambda_min, self.lambda_max, self.num_points)
    self.k_array = 2 * np.pi / self.lambda_array[::-1]
    self.k_grid = np.linspace(np.min(self.k_array), np.max(self.k_array), self.num_points)

with no validation anywhere: `set_lambda_min`/`set_lambda_max` store the
new bound and call `update_lambda_arrays` unconditionally.  The derived
arrays are embedded as functions of the three stored fields, so all three
always come from the same bounds. -/

/-- Source: `np.linspace(a, b, n)`: sample `i` of `n` evenly spaced values from
`a` to `b` inclusive (for `n = 1` the single sample is `a`). -/
noncomputable def linspace (a b : ℝ) (n : ℕ) (i : ℕ) : ℝ :=
  a + i * ((b - a) / ((n : ℝ) - 1))

/-- The fields of `FFTThread` that determine the calibration arrays. -/
structure Calib where
  lambda_min : ℝ
  lambda_max : ℝ
  num_points : ℕ

/-- Source: `self.lambda_array = np.linspace(lambda_min, lambda_max, num_points)`. -/
noncomputable def lambda_array (c : Calib) (i : ℕ) : ℝ :=
  linspace c.lambda_min c.lambda_max c.num_points i

/-- Source: `self.k_array = 2 * np.pi / self.lambda_array[::-1]`: sample `i` is
`2π` over the reversed wavelength array. -/
noncomputable def k_array (c : Calib) (i : ℕ) : ℝ :=
  2 * Real.pi / lambda_array c (c.num_points - 1 - i)

/-- Source: `np.min` over the first `n` samples of `f` (0 for an empty array). -/
noncomputable def npMin (f : ℕ → ℝ) (n : ℕ) : ℝ :=
  if h : 0 < n then
    (Finset.range n).inf' (by simpa [Finset.nonempty_range_iff] using Nat.pos_iff_ne_zero.mp h) f
  else 0

/-- Source: `np.max` over the first `n` samples of `f` (0 for an empty array). -/
noncomputable def npMax (f : ℕ → ℝ) (n : ℕ) : ℝ :=
  if h : 0 < n then
    (Finset.range n).sup' (by simpa [Finset.nonempty_range_iff] using Nat.pos_iff_ne_zero.mp h) f
  else 0

/-- Source: `self.k_grid = np.linspace(np.min(self.k_array), np.max(self.k_array), self.num_points)`. -/
noncomputable def k_grid (c : Calib) (i : ℕ) : ℝ :=
  linspace (npMin (k_array c) c.num_points) (npMax (k_array c) c.num_points) c.num_points i

/-- The calibration installed by `__init__`'s defaults:
`lambda_min=1200`, `lambda_max=1430`, `num_points=2048`. -/
def defaultCalib : Calib := ⟨1200, 1430, 2048⟩

/-- Source: `update_lambda_arrays` after storing new bounds: the calibration state
is unconditionally replaced — there is no validation and no failure path
in the code. -/
def update_lambda_arrays (lmin lmax : ℝ) (n : ℕ) : Calib := ⟨lmin, lmax, n⟩

/-- Source: `set_lambda_min`: store the new minimum and recompute the arrays. -/
def set_lambda_min (c : Calib) (v : ℝ) : Calib :=
  update_lambda_arrays v c.lambda_max c.num_points

/-- Source: `set_lambda_max`: store the new maximum and recompute the arrays. -/
def set_lambda_max (c : Calib) (v : ℝ) : Calib :=
  update_lambda_arrays c.lambda_min v c.num_points

/-- A valid calibration: physical (positive) wavelength bounds in
ascending order — the defaults are 1200 nm and 1430 nm — and at least two
sample points. -/
def ValidCalib (c : Calib) : Prop :=
  0 < c.lambda_min ∧ c.lambda_min < c.lambda_max ∧ 2 ≤ c.num_points

/-! ## Thresholding, magnitude and phase (lines 172-182)

`calculate_fft` ends with, for `fft_result` the rfft spectrum (one row of
complex bins per frame line):

    fft_result2 = np.where(fft_result < 400, 0, fft_result)
    fft_magnitude = np.abs(fft_result[:, 25:525]).T
    fft_phase = np.angle(fft_result2[0:998, 25:525]).T - np.angle(fft_result2[1:999, 25:525]).T

The spectrum is embedded as a function `F : ℕ → ℕ → ℂ` sending (line,
bin) to the complex bin value.  NumPy orders complex values
lexicographically — real parts first, imaginary parts as tie-break — so
`fft_result < 400` compares each bin to `400 + 0j` in that order.
`np.angle` is `atan2(im, re)`, which is `Complex.arg` (in particular
`angle(0) = 0`). -/

/-- NumPy's lexicographic order on complex values: real parts first,
imaginary parts as tie-break. -/
def cplxLt (z w : ℂ) : Prop := z.re < w.re ∨ (z.re = w.re ∧ z.im < w.im)

open Classical in
/-- One bin of `np.where(fft_result < 400, 0, fft_result)`: bins below the
fixed noise floor are replaced by a true zero. -/
noncomputable def threshold (z : ℂ) : ℂ := if cplxLt z 400 then 0 else z

/-- The thresholded spectrum `fft_result2`. -/
noncomputable def thresholdM (F : ℕ → ℕ → ℂ) (i j : ℕ) : ℂ := threshold (F i j)

/-- Entry `(b, i)` of `np.abs(fft_result[:, 25:525]).T`: the magnitude
image is bin-by-line and is computed from the raw spectrum `fft_result`,
not from `fft_result2`. -/
noncomputable def fft_magnitude (F : ℕ → ℕ → ℂ) (b i : ℕ) : ℝ :=
  Complex.abs (F i (25 + b))

/-- Entry `(b, i)` of
`np.angle(fft_result2[0:998, 25:525]).T - np.angle(fft_result2[1:999, 25:525]).T`:
the row slices start at lines 0 and 1, the column slice at bin 25, and the
transposes make the image bin-by-line. -/
noncomputable def fft_phase (F : ℕ → ℕ → ℂ) (b i : ℕ) : ℝ :=
  (thresholdM F (0 + i) (25 + b)).arg - (thresholdM F (1 + i) (25 + b)).arg

/-- Once `running` is false it stays false, no event emits a result, and
the frame slot never changes. -/
theorem runEvents_stopped (evs : List Event) (s : FFTState) (h : s.running = false) :
    (runEvents s evs).1.running = false ∧ (runEvents s evs).1.frame = s.frame ∧
      (runEvents s evs).2 = [] := by
  induction evs generalizing s with
  | nil => exact ⟨h, rfl, rfl⟩
  | cons e es ih =>
    cases e with
    | publish f =>
      have hs : set_frame s f = s := by simp [set_frame, h]
      simpa [runEvents, applyEvent, hs] using ih s h
    | stopReq =>
      have := ih (stop s) (by simp [stop])
      simpa [runEvents, applyEvent, stop] using this
    | iter =>
      have hs : loopIter s = (s, []) := by simp [loopIter, h]
      simpa [runEvents, applyEvent, hs] using ih s h

/-! ## Claim theorems for C1 and C4 -/

/-- Sanity check: 2500 is already 11-smooth, so the computed fast FFT
length is 2500 itself. -/
theorem target_size_eq : target_size = 2500 := by decide

/-- C1, as stated, is false: with `peak_percentage = 0` and
`current_size = 2000` we have `target_size = 2500 > 2000`, yet
`left_padding = 1250`, `right_padding = 0`, so the padded row has length
`1250 + 2000 + 0 = 3250 ≠ target_size`. -/
theorem C1_counterexample :
    2000 < target_size ∧ (0 : Nat) ≤ 100 ∧ padded_row_length 2000 0 ≠ target_size := by
  decide

/-- C1 (amended): whenever `target_size > current_size` **and** the computed
`left_padding` does not exceed `target_size - current_size`, the padded row
has length exactly `target_size`; and whenever `target_size ≤ current_size`
no padding is applied, so the output row length equals the input row length.
(The extra hypothesis is forced: `right_padding` is clamped at 0, so when
`left_padding > target_size - current_size` the padded row is longer than
`target_size`, as the counterexample shows.) -/
theorem C1_padding_invariant (cs pp : Nat) :
    (cs < target_size → left_padding cs pp ≤ target_size - cs →
      padded_row_length cs pp = target_size) ∧
    (target_size ≤ cs → padded_row_length cs pp = cs) := by
  constructor
  · intro hlt hle
    unfold padded_row_length
    rw [if_pos hlt]
    unfold right_padding
    have hts : (left_padding cs pp : Int) ≤ (target_size : Int) - cs := by
      omega
    have h0 : (0 : Int) ≤ (target_size : Int) - cs - left_padding cs pp := by omega
    rw [max_eq_right h0]
    omega
  · intro hge
    unfold padded_row_length
    rw [if_neg (by omega)]

/-- Witness for C1 (amended): the default configuration
(`current_size = 2048`, `peak_percentage = 56`) pads to exactly
`target_size`, and a 3000-sample row is left unpadded. -/
theorem C1_padding_invariant_witness :
    padded_row_length 2048 56 = target_size ∧ padded_row_length 3000 56 = 3000 :=
  ⟨(C1_padding_invariant 2048 56).1 (by decide) (by decide),
   (C1_padding_invariant 3000 56).2 (by decide)⟩

/-- C4, as stated, is false: after passes with loop times `1` and `1/3`
the code emits `fps = 3` (the reciprocal of the last loop time alone),
while the claimed `1 / mean(history)` over the capacity-10 history
`[1, 1/3]` would be `3/2`. -/
theorem C4_counterexample :
    fpsAfter [1, 1/3] = 3 ∧ 1 / listMean (historyAfter [1, 1/3]) = 3/2 ∧
    fpsAfter [1, 1/3] ≠ 1 / listMean (historyAfter [1, 1/3]) := by
  refine ⟨by norm_num [fpsAfter, calculate_fps], ?_, ?_⟩ <;>
    norm_num [fpsAfter, calculate_fps, historyAfter, pushHistory, listMean]

/-! ### Calibration lemmas -/

/-- The linspace step of a valid calibration is positive. -/
theorem validCalib_step_pos (c : Calib) (h : ValidCalib c) :
    0 < (c.lambda_max - c.lambda_min) / ((c.num_points : ℝ) - 1) := by
  obtain ⟨_, h2, h3⟩ := h
  have hn : (2 : ℝ) ≤ (c.num_points : ℝ) := by exact_mod_cast h3
  exact div_pos (by linarith) (by linarith)

/-- Every wavelength sample of a valid calibration is positive. -/
theorem lambda_array_pos (c : Calib) (h : ValidCalib c) (x : ℕ) :
    0 < lambda_array c x := by
  have hd := validCalib_step_pos c h
  have hx : (0 : ℝ) ≤ (x : ℝ) * ((c.lambda_max - c.lambda_min) / ((c.num_points : ℝ) - 1)) :=
    mul_nonneg (Nat.cast_nonneg x) hd.le
  have h1 := h.1
  unfold lambda_array linspace
  linarith

/-- The wavelength array of a valid calibration is strictly increasing in
the sample index. -/
theorem lambda_array_lt (c : Calib) (h : ValidCalib c) {a b : ℕ} (hab : a < b) :
    lambda_array c a < lambda_array c b := by
  have hd := validCalib_step_pos c h
  have hab' : (a : ℝ) < (b : ℝ) := by exact_mod_cast hab
  unfold lambda_array linspace
  have := mul_lt_mul_of_pos_right hab' hd
  linarith

/-- The wavenumber array of a valid calibration is strictly ascending. -/
theorem k_array_lt (c : Calib) (h : ValidCalib c) {i j : ℕ} (hij : i < j)
    (hj : j < c.num_points) : k_array c i < k_array c j := by
  have hidx : c.num_points - 1 - j < c.num_points - 1 - i := by omega
  have hlam := lambda_array_lt c h hidx
  have hpos := lambda_array_pos c h (c.num_points - 1 - j)
  exact div_lt_div_of_pos_left Real.two_pi_pos hpos hlam

/-- Source: `np.min` of an array that is strictly increasing on its index range is
its first sample. -/
theorem npMin_of_mono (f : ℕ → ℝ) (n : ℕ) (hn : 0 < n)
    (hmono : ∀ i j, i < j → j < n → f i < f j) : npMin f n = f 0 := by
  unfold npMin
  rw [dif_pos hn]
  refine le_antisymm (Finset.inf'_le f (Finset.mem_range.mpr hn)) ?_
  refine Finset.le_inf' _ _ fun b hb => ?_
  rcases Nat.eq_zero_or_pos b with hb0 | hb0
  · exact le_of_eq (by rw [hb0])
  · exact (hmono 0 b hb0 (Finset.mem_range.mp hb)).le

/-- Source: `np.max` of an array that is strictly increasing on its index range is
its last sample. -/
theorem npMax_of_mono (f : ℕ → ℝ) (n : ℕ) (hn : 0 < n)
    (hmono : ∀ i j, i < j → j < n → f i < f j) : npMax f n = f (n - 1) := by
  unfold npMax
  rw [dif_pos hn]
  refine le_antisymm ?_ (Finset.le_sup' f (Finset.mem_range.mpr (by omega)))
  refine Finset.sup'_le _ _ fun b hb => ?_
  have hbn : b < n := Finset.mem_range.mp hb
  rcases Nat.lt_or_ge b (n - 1) with hb1 | hb1
  · exact (hmono b (n - 1) hb1 (by omega)).le
  · exact le_of_eq (by rw [show b = n - 1 by omega])

/-! ### Interpolation lemmas -/

/-- Source: `np.interp` evaluated exactly at a node of a strictly ascending node
list returns that node's ordinate, exactly (in exact arithmetic). -/
theorem interp_node : ∀ (ps : List (ℚ × ℚ)),
    ps.Pairwise (fun p q => p.1 < q.1) → ∀ p ∈ ps, interp p.1 ps = p.2
  | [], _, p, hp => absurd hp (List.not_mem_nil p)
  | [a], _, p, hp => by
    rcases List.mem_singleton.mp hp with rfl
    rfl
  | a :: b :: ps, hasc, p, hp => by
    rcases List.pairwise_cons.mp hasc with ⟨ha, hasc'⟩
    rcases List.mem_cons.mp hp with rfl | hp'
    · show interp p.1 (p :: b :: ps) = p.2
      simp only [interp]
      rw [if_pos le_rfl]
    · have hlt : a.1 < p.1 := ha p hp'
      simp only [interp]
      rw [if_neg (not_le.mpr hlt)]
      rcases List.mem_cons.mp hp' with rfl | hp''
      · rw [if_pos le_rfl]
        have hne : p.1 - a.1 ≠ 0 := sub_ne_zero.mpr (ne_of_gt hlt)
        rw [mul_div_assoc, div_self hne, mul_one]
        ring
      · have hbp : b.1 < p.1 := (List.pairwise_cons.mp hasc').1 p hp''
        rw [if_neg (not_le.mpr hbp)]
        exact interp_node (b :: ps) hasc' p (List.mem_cons_of_mem b hp'')

/-- Resampling one row through an identity calibration
(`k_array = k_grid`, strictly ascending) reproduces the reversed row
exactly: the interpolation is the identity on the reversed data. -/
theorem lambda_to_k_row_identity (kArr row : List ℚ)
    (hasc : kArr.Pairwise (· < ·)) (hlen : row.length = kArr.length) :
    lambda_to_k_row kArr kArr row = row.reverse := by
  have hlenr : row.reverse.length = kArr.length := by simp [hlen]
  have hzfst : (kArr.zip row.reverse).map Prod.fst = kArr :=
    List.map_fst_zip kArr row.reverse (le_of_eq hlenr.symm)
  have hzasc : (kArr.zip row.reverse).Pairwise (fun p q => p.1 < q.1) := by
    rw [← hzfst] at hasc
    exact (List.pairwise_map.mp hasc).imp (fun h => h)
  apply List.ext_getElem
  · simp [lambda_to_k_row, hlen]
  · intro i h1 h2
    have hik : i < kArr.length := by simpa [lambda_to_k_row] using h1
    have hiz : i < (kArr.zip row.reverse).length := by
      simp [List.length_zip, hlenr, hik]
    have hnode := interp_node (kArr.zip row.reverse) hzasc
      (kArr.zip row.reverse)[i] (List.getElem_mem hiz)
    have hir : i < row.reverse.length := by omega
    have hzi : (kArr.zip row.reverse)[i] = (kArr[i], row.reverse[i]) :=
      List.getElem_zip
    calc (lambda_to_k_row kArr kArr row)[i]
        = interp kArr[i] (kArr.zip row.reverse) := by
          simp [lambda_to_k_row]
      _ = row.reverse[i] := by
          rw [show kArr[i] = (kArr.zip row.reverse)[i].1 by rw [hzi]]
          rw [hnode, hzi]

/-- A bin whose magnitude is below the noise floor has real part below
400 (since `re ≤ |z|`), so the lexicographic comparison zeroes it. -/
theorem threshold_abs_lt (z : ℂ) (h : Complex.abs z < 400) : threshold z = 0 := by
  have hre : z.re < (400 : ℂ).re := by
    simpa using lt_of_le_of_lt (Complex.re_le_abs z) h
  simp only [threshold]
  exact if_pos (Or.inl hre)

/-- C7, as stated, is false: `lambda_to_k` reverses each row before
interpolating, so with an identity calibration (`k_array = k_grid =
[1, 2]`, strictly ascending) the one-line frame `[[3, 7]]`, already
sampled on `k_grid`, comes back as `[[7, 3]]`, not unchanged. -/
theorem C7_counterexample :
    lambda_to_k [1, 2] [1, 2] [[3, 7]] = [[7, 3]] ∧
    lambda_to_k [1, 2] [1, 2] [[3, 7]] ≠ [[3, 7]] := by
  norm_num [lambda_to_k, lambda_to_k_row, interp, List.zip_cons_cons]

/-- C7 (amended): under an identity calibration (`k_array = k_grid`,
strictly ascending) the resampling stage returns each row of the frame
reversed, exactly: the interpolation itself is the exact identity on the
already-on-grid data, and the only change is the wavelength-axis reversal
the stage applies first. -/
theorem C7_identity_resample (kArr : List ℚ) (frame : List (List ℚ))
    (hasc : kArr.Pairwise (· < ·)) (hlen : ∀ row ∈ frame, row.length = kArr.length) :
    lambda_to_k kArr kArr frame = frame.map List.reverse := by
  unfold lambda_to_k
  exact List.map_congr_left fun row hrow =>
    lambda_to_k_row_identity kArr row hasc (hlen row hrow)

/-- Witness for C7 (amended): a two-line frame on the ascending grid
`[1, 2, 3]` comes back with each row reversed. -/
theorem C7_identity_resample_witness :
    lambda_to_k [1, 2, 3] [1, 2, 3] [[4, 5, 6], [9, 8, 7]] =
      ([[4, 5, 6], [9, 8, 7]] : List (List ℚ)).map List.reverse :=
  C7_identity_resample [1, 2, 3] [[4, 5, 6], [9, 8, 7]] (by decide)
    (by intro row hrow; fin_cases hrow <;> rfl)

/-- C6, as stated, is false: `update_lambda_arrays` performs no
validation.  Starting from the previously-valid default calibration and
configuring with the malformed bounds `lambda_min = 1430 ≥ 1200 =
lambda_max`, the call does not fail — it returns a new state — and the
calibration state is changed (`lambda_array[0]` becomes 1430 instead of
1200), not left unchanged. -/
theorem C6_counterexample :
    update_lambda_arrays 1430 1200 2048 ≠ defaultCalib ∧
    lambda_array (update_lambda_arrays 1430 1200 2048) 0 = 1430 ∧
    lambda_array defaultCalib 0 = 1200 := by
  refine ⟨?_, ?_, ?_⟩
  · intro hEq
    have h2 : (1430 : ℝ) = 1200 := by
      simpa [update_lambda_arrays, defaultCalib] using congrArg Calib.lambda_min hEq
    norm_num at h2
  · simp [update_lambda_arrays, lambda_array, linspace]
  · simp [defaultCalib, lambda_array, linspace]

/-- C6 (amended): a `configure` call never fails and never preserves the
old state: for any bounds — including malformed ones with
`lambda_min > lambda_max` — the calibration state is unconditionally
replaced by one computed from the new bounds, and with
`lambda_min > lambda_max > 0` and at least two points the resulting
`k_array` starts strictly descending, corrupting the previously-valid
ascending invariant rather than rejecting the input. -/
theorem C6_no_validation (lmin lmax : ℝ) (n : ℕ)
    (hl : lmax < lmin) (hpos : 0 < lmax) (hn : 2 ≤ n) :
    update_lambda_arrays lmin lmax n = ⟨lmin, lmax, n⟩ ∧
    k_array (update_lambda_arrays lmin lmax n) 1 <
      k_array (update_lambda_arrays lmin lmax n) 0 := by
  refine ⟨rfl, ?_⟩
  have hn1 : (0 : ℝ) < (n : ℝ) - 1 := by
    have : (2 : ℝ) ≤ (n : ℝ) := by exact_mod_cast hn
    linarith
  have hne : ((n : ℝ) - 1) ≠ 0 := ne_of_gt hn1
  have e1 : lambda_array ⟨lmin, lmax, n⟩ (n - 1 - 0) = lmax := by
    unfold lambda_array linspace
    simp only
    rw [Nat.sub_zero, Nat.cast_sub (by omega : 1 ≤ n)]
    push_cast
    field_simp
  have e2 : lambda_array ⟨lmin, lmax, n⟩ (n - 1 - 1) =
      lmin + ((n : ℝ) - 2) * ((lmax - lmin) / ((n : ℝ) - 1)) := by
    unfold lambda_array linspace
    simp only
    rw [show n - 1 - 1 = n - 2 by omega, Nat.cast_sub (by omega : 2 ≤ n)]
    push_cast
    ring
  have key : lmin + ((n : ℝ) - 2) * ((lmax - lmin) / ((n : ℝ) - 1)) - lmax =
      (lmin - lmax) / ((n : ℝ) - 1) := by
    field_simp
    ring
  have hgt : lmax < lambda_array ⟨lmin, lmax, n⟩ (n - 1 - 1) := by
    rw [e2]
    have hq : 0 < (lmin - lmax) / ((n : ℝ) - 1) := div_pos (by linarith) hn1
    linarith [key]
  show 2 * Real.pi / lambda_array ⟨lmin, lmax, n⟩ (n - 1 - 1) <
    2 * Real.pi / lambda_array ⟨lmin, lmax, n⟩ (n - 1 - 0)
  rw [e1]
  exact div_lt_div_of_pos_left Real.two_pi_pos hpos hgt

/-- Witness for C6 (amended): bounds swapped to `lambda_min = 2`,
`lambda_max = 1` with two points. -/
theorem C6_no_validation_witness :
    update_lambda_arrays 2 1 2 = (⟨2, 1, 2⟩ : Calib) ∧
    k_array (update_lambda_arrays 2 1 2) 1 < k_array (update_lambda_arrays 2 1 2) 0 :=
  C6_no_validation 2 1 2 (by norm_num) (by norm_num) (by norm_num)

/-- C8: for every valid calibration (physical wavelength bounds
`0 < lambda_min < lambda_max`, at least two points), and hence after
every setter call that leaves the state valid: `k_array` is strictly
ascending; `np.min`/`np.max` of `k_array` are its first and last samples;
`k_grid` starts at `min(k_array)`, ends at `max(k_array)`, and is uniform
with constant step `(max - min) / (num_points - 1)` over its
`num_points` samples; and after a setter call `k_grid` is recomputed from
the `k_array` of the same new state, so the pair always belongs to a
single calibration epoch. -/
theorem C8_calibration_invariant (c : Calib) (h : ValidCalib c) :
    (∀ i j, i < j → j < c.num_points → k_array c i < k_array c j) ∧
    npMin (k_array c) c.num_points = k_array c 0 ∧
    npMax (k_array c) c.num_points = k_array c (c.num_points - 1) ∧
    k_grid c 0 = k_array c 0 ∧
    k_grid c (c.num_points - 1) = k_array c (c.num_points - 1) ∧
    (∀ j, k_grid c (j + 1) - k_grid c j =
      (k_array c (c.num_points - 1) - k_array c 0) / ((c.num_points : ℝ) - 1)) ∧
    (∀ v i, k_grid (set_lambda_min c v) i =
      linspace (npMin (k_array (set_lambda_min c v)) (set_lambda_min c v).num_points)
        (npMax (k_array (set_lambda_min c v)) (set_lambda_min c v).num_points)
        (set_lambda_min c v).num_points i) := by
  have h22 := h.2.2
  have hn0 : 0 < c.num_points := by omega
  have hmono : ∀ i j, i < j → j < c.num_points → k_array c i < k_array c j :=
    fun i j hij hj => k_array_lt c h hij hj
  have hmin := npMin_of_mono (k_array c) c.num_points hn0 hmono
  have hmax := npMax_of_mono (k_array c) c.num_points hn0 hmono
  have hc1 : ((c.num_points - 1 : ℕ) : ℝ) = (c.num_points : ℝ) - 1 := by
    rw [Nat.cast_sub (by omega)]
    simp
  have hne : ((c.num_points : ℝ) - 1) ≠ 0 := by
    have : (2 : ℝ) ≤ (c.num_points : ℝ) := by exact_mod_cast h22
    linarith
  refine ⟨hmono, hmin, hmax, ?_, ?_, ?_, fun v i => rfl⟩
  · unfold k_grid linspace
    rw [hmin]
    simp
  · unfold k_grid linspace
    rw [hmin, hmax, hc1]
    field_simp
  · intro j
    unfold k_grid linspace
    rw [hmin, hmax]
    push_cast
    ring

/-- Witness for C8 at the default calibration (1200 nm, 1430 nm, 2048
points). -/
theorem C8_calibration_invariant_witness :
    (∀ i j, i < j → j < defaultCalib.num_points →
      k_array defaultCalib i < k_array defaultCalib j) ∧
    npMin (k_array defaultCalib) defaultCalib.num_points = k_array defaultCalib 0 ∧
    npMax (k_array defaultCalib) defaultCalib.num_points =
      k_array defaultCalib (defaultCalib.num_points - 1) ∧
    k_grid defaultCalib 0 = k_array defaultCalib 0 ∧
    k_grid defaultCalib (defaultCalib.num_points - 1) =
      k_array defaultCalib (defaultCalib.num_points - 1) ∧
    (∀ j, k_grid defaultCalib (j + 1) - k_grid defaultCalib j =
      (k_array defaultCalib (defaultCalib.num_points - 1) - k_array defaultCalib 0) /
        ((defaultCalib.num_points : ℝ) - 1)) ∧
    (∀ v i, k_grid (set_lambda_min defaultCalib v) i =
      linspace
        (npMin (k_array (set_lambda_min defaultCalib v))
          (set_lambda_min defaultCalib v).num_points)
        (npMax (k_array (set_lambda_min defaultCalib v))
          (set_lambda_min defaultCalib v).num_points)
        (set_lambda_min defaultCalib v).num_points i) :=
  C8_calibration_invariant defaultCalib (by norm_num [ValidCalib, defaultCalib])

/-- C2, as stated, is false: the row slices `0:998` and `1:999` are
hardwired, so a frame with `L = 1000` lines (the height configured for
the camera) yields a phase image of 998 lines, not `L - 1 = 999`. -/
theorem C2_counterexample : phase_line_count 1000 ≠ some (1000 - 1) := by decide

/-- C2 (amended): for a frame with exactly `L = 999` lines — the largest
line count the hardwired slices `0:998` and `1:999` fully cover — the
phase image has `L - 1 = 998` lines, and its entry at bin `b` of the ROI
and line `i` is `angle(line i) - angle(line i+1)` of the thresholded
spectrum at ROI bin `25 + b`.  (For `L ≥ 1000` the image keeps 998 lines
instead of `L - 1`, and for `2 < L < 999` the two slices do not even
broadcast.) -/
theorem C2_phase_image (F : ℕ → ℕ → ℂ) (L b i : ℕ) (hL : L = 999) (hb : b < 500)
    (hi : i < L - 1) :
    phase_line_count L = some (L - 1) ∧
    fft_phase F b i = (thresholdM F i (25 + b)).arg - (thresholdM F (i + 1) (25 + b)).arg := by
  subst hL
  exact ⟨by decide, by simp [fft_phase, Nat.add_comm]⟩

/-- Witness for C2 (amended) at the zero spectrum, bin 0, line pair (0, 1). -/
theorem C2_phase_image_witness :
    phase_line_count 999 = some (999 - 1) ∧
    fft_phase (fun _ _ => 0) 0 0 =
      (thresholdM (fun _ _ => 0) 0 (25 + 0)).arg -
        (thresholdM (fun _ _ => 0) (0 + 1) (25 + 0)).arg :=
  C2_phase_image (fun _ _ => 0) 999 0 0 rfl (by decide) (by decide)

/-- C3: every spectral bin whose magnitude is below the fixed noise floor
400 is set to a true zero in the thresholded copy of the spectrum, and
such a bin contributes an angle of exactly 0 (`np.angle(0) = atan2(0,0) = 0`,
never NaN) to any phase-difference term it appears in. -/
theorem C3_noise_floor (F : ℕ → ℕ → ℂ) (i j : ℕ) (h : Complex.abs (F i j) < 400) :
    thresholdM F i j = 0 ∧ (thresholdM F i j).arg = 0 := by
  have hz : thresholdM F i j = 0 := threshold_abs_lt (F i j) h
  exact ⟨hz, by rw [hz]; exact Complex.arg_zero⟩

/-- Witness for C3 at the zero spectrum (a true zero bin, magnitude 0). -/
theorem C3_noise_floor_witness :
    thresholdM (fun _ _ => 0) 0 0 = 0 ∧ (thresholdM (fun _ _ => 0) 0 0).arg = 0 :=
  C3_noise_floor (fun _ _ => 0) 0 0 (by simp)

/-- C10: each entry of the emitted magnitude image equals the absolute
value of the corresponding bin of the raw, un-thresholded spectrum at ROI
bin `25 + b` of line `i`, bin-by-line; the noise floor plays no part in
it, even for bins below the floor, which the thresholded copy (used only
for the phase image) zeroes. -/
theorem C10_magnitude_unthresholded (F : ℕ → ℕ → ℂ) (b i : ℕ) (hb : b < 500) :
    fft_magnitude F b i = Complex.abs (F i (25 + b)) ∧
    (Complex.abs (F i (25 + b)) < 400 → thresholdM F i (25 + b) = 0) :=
  ⟨rfl, fun h => threshold_abs_lt (F i (25 + b)) h⟩

/-- Witness for C10 at the zero spectrum, ROI bin 0, line 0. -/
theorem C10_magnitude_unthresholded_witness :
    fft_magnitude (fun _ _ => 0) 0 0 = Complex.abs ((fun _ _ => (0:ℂ)) 0 (25 + 0)) ∧
    (Complex.abs ((fun _ _ => (0:ℂ)) 0 (25 + 0)) < 400 →
      thresholdM (fun _ _ => 0) 0 (25 + 0) = 0) :=
  C10_magnitude_unthresholded (fun _ _ => 0) 0 0 (by decide)

/-- C5, as stated, is false: a 3-line frame of width 2048 (the default
`num_points`) makes the phase subtraction in `calculate_fft` fail to
broadcast — shapes `(500, 3)` and `(500, 2)` — and with no handler in
`run` the exception escapes the loop: the following well-formed 999-line
frame is never processed, instead of the loop continuing to the next
iteration. -/
theorem C5_counterexample :
    runPass 2048 56 ⟨3, 2048⟩ = .error .valueError ∧
    runLoop 2048 56 [⟨3, 2048⟩, ⟨999, 2048⟩] = ([], some .valueError) ∧
    runLoop 2048 56 [⟨999, 2048⟩] = ([998], none) :=
  ⟨rfl, rfl, rfl⟩

/-- C5 (amended): nothing in the `run` loop catches exceptions.  A failure
arising during one reconstruction pass propagates out of the loop and
terminates it: no result is emitted for the failing frame, and every later
frame is discarded unprocessed, rather than the loop continuing to the
next iteration. -/
theorem C5_exception_escapes (num_points pp : Nat) (f : FrameShape) (e : PyErr)
    (rest : List FrameShape) (h : runPass num_points pp f = .error e) :
    runLoop num_points pp (f :: rest) = ([], some e) := by
  simp [runLoop, h]

/-- Witness for C5 (amended): the 3-line frame aborts the loop before the
999-line frame is reached. -/
theorem C5_exception_escapes_witness :
    runLoop 2048 56 [⟨3, 2048⟩, ⟨999, 2048⟩] = ([], some .valueError) :=
  C5_exception_escapes 2048 56 ⟨3, 2048⟩ .valueError [⟨999, 2048⟩] rfl

/-- C9: stop semantics.  After `stop()` sets `running` to false, no later
sequence of published frames, stop requests and loop iterations emits any
result, no published frame is ever stored (the slot keeps whatever value
it had when the stop was issued), and the loop never resumes. -/
theorem C9_stop_semantics (s : FFTState) (evs : List Event) :
    (runEvents (stop s) evs).2 = [] ∧
    (runEvents (stop s) evs).1.frame = s.frame ∧
    (runEvents (stop s) evs).1.running = false := by
  obtain ⟨h1, h2, h3⟩ := runEvents_stopped evs (stop s) (by simp [stop])
  exact ⟨h3, h2, h1⟩

/-- C4 (amended): `FFTThread` keeps no history of per-pass times.  After
every completed pass the emitted fps is computed from that pass's elapsed
wall-clock time alone: `1 / t` when `t > 0` and `0` otherwise (the
division-by-zero guard), regardless of all earlier passes. -/
theorem C4_fps_last_pass_only (times : List ℚ) (t : ℚ) :
    fpsAfter (times ++ [t]) = if 0 < t then 1 / t else 0 := by
  simp [fpsAfter, List.foldl_append, calculate_fps]

end PylonOCT
